import Mathlib

/-!
Shallow embedding of drivers/clk/ti/clk-am3-dpll.c (TI AM3 DPLL clock driver).

Modelling conventions:
* `ulong` (u-boot unsigned long) is modelled as a 64-bit unsigned integer:
  a `Nat` reduced mod 2^64 wherever C arithmetic can wrap.
* C `int` values are modelled as `Int` together with the explicit conversion
  `toInt32` (reduction mod 2^32 into the signed range) at each point where the
  source converts an unsigned quantity to `int`.
* Memory-mapped registers and the driver private data are a `DpllState`
  record; `readl`/`writel`/`clrsetbits_le32` become explicit state passing.
* The two `wait_on_value` polls of `set_rate` are oracles: a `Bool` argument
  tells whether the poll observes the expected value before the timeout.
* `hang()` (never returns) is modelled by returning `none`.
-/

/-- 2^32, the modulus of the 32-bit types u32 / int. -/
def U32 : Nat := 4294967296

/-- 2^64, the modulus of the 64-bit types ulong / u64. -/
def U64 : Nat := 18446744073709551616

/-- Largest value of the signed 32-bit C int. -/
def INT_MAX : Nat := 2147483647

/-- The value (ulong)(-EFAULT) with EFAULT = 14: the failure sentinel that
`clk_ti_am3_dpll_round_rate` stores in `ret` before the search. -/
def EFAULT_RET : Nat := U64 - 14

/-- u-boot IS_ERR_VALUE: x >= (unsigned long)(-MAX_ERRNO) with MAX_ERRNO = 4095. -/
def IS_ERR_VALUE (x : Nat) : Bool := decide (U64 - 4095 ≤ x)

/-- Conversion of an unsigned value to a signed 32-bit int (wraps mod 2^32,
values at or above 2^31 become negative). -/
def toInt32 (x : Nat) : Int :=
  if x % U32 < 2147483648 then ((x % U32 : Nat) : Int)
  else ((x % U32 : Nat) : Int) - (U32 : Int)

/-- 64-bit unsigned subtraction a - b (mod 2^64). -/
def u64sub (a b : Nat) : Nat := (a % U64 + (U64 - b % U64)) % U64

/-- C `abs` on int (the INT_MIN edge case never arises in the proofs below). -/
def cAbs (x : Int) : Int := if x < 0 then -x else x

/-- One candidate rate `r = (ref_rate * m) / d` as the source computes it:
the 64-bit product may wrap. -/
def candW (ref d m : Nat) : Nat := (ref * m) % U64 / d

/-- The C expression `abs(r - rate)`: ulong subtraction, conversion of the
result to int, then abs. -/
def wErr (rate r : Nat) : Int := cAbs (toInt32 (u64sub r rate))

/-- The running state of the search in `clk_ti_am3_dpll_round_rate`:
`ret`, `err_min`, `mult`, `div` of the source. -/
structure SearchSt where
  ret : Nat
  errMin : Int
  mult : Nat
  div : Nat
deriving DecidableEq

/-- The inner loop `for (m = 2; m <= 2047; m++)` of round_rate, starting at
multiplier `m` with `fuel` iterations left (`fuel = 2048 - m` at every call).
The loop body's locals `r = (ref_rate * m) / d` and `err = abs(r - rate)` are
written inline as `candW ref d m` and `wErr rate (candW ref d m)`. -/
def innerLoop (ref rate d : Nat) : Nat → Nat → SearchSt → SearchSt
  | 0, _, st => st
  | fuel + 1, m, st =>
    if m ≤ 2047 then
      if wErr rate (candW ref d m) < st.errMin then
        if wErr rate (candW ref d m) = 0 then
          ⟨candW ref d m, wErr rate (candW ref d m), m, d⟩
        else
          innerLoop ref rate d fuel (m + 1) ⟨candW ref d m, wErr rate (candW ref d m), m, d⟩
      else if candW ref d m > rate then st
      else innerLoop ref rate d fuel (m + 1) st
    else st

/-- The outer loop `for (d = 1; err_min && d <= 128; d++)` of round_rate,
starting at divider `d` with `fuel` iterations left (`fuel = 129 - d`). -/
def outerLoop (ref rate : Nat) : Nat → Nat → SearchSt → SearchSt
  | 0, _, st => st
  | fuel + 1, d, st =>
    if st.errMin ≠ 0 ∧ d ≤ 128 then
      outerLoop ref rate fuel (d + 1) (innerLoop ref rate d 2046 2 st)
    else st

/-- The clamping step at the top of round_rate:
`if (priv->max_rate && rate > priv->max_rate) rate = priv->max_rate;`. -/
def clampRate (maxRate rate : Nat) : Nat :=
  if maxRate ≠ 0 ∧ rate > maxRate then maxRate else rate

/-- The search of `clk_ti_am3_dpll_round_rate` after clamping: `ret = -EFAULT`,
`err_min = rate` (converted to int), then the nested loops. -/
def dpllSearch (ref rate : Nat) : SearchSt :=
  outerLoop ref rate 128 1 ⟨EFAULT_RET, toInt32 rate, INT_MAX, INT_MAX⟩

/-- `clk_ti_am3_dpll_round_rate` as a pure function of `max_rate`, the
reference-clock rate and the requested rate, returning the final search state
(`ret` is the returned value, `mult`/`div` are stored into the private data). -/
def clk_ti_am3_dpll_round_rate (maxRate ref rate : Nat) : SearchSt :=
  dpllSearch ref (clampRate maxRate rate)

/-- Modelled from the spec: the mode-control register's enable field, which
"selects bypass vs. locked-and-enabled mode". The constant
CM_CLKMODE_DPLL_EN_MASK comes from a platform header that is not part of this
repository; the enable field is the low 3 bits. -/
def CM_CLKMODE_DPLL_EN_MASK : Nat := 7

/-- Modelled from the spec: shift of the mode-control enable field
(CM_CLKMODE_DPLL_EN_SHIFT of the missing platform header). -/
def CM_CLKMODE_DPLL_EN_SHIFT : Nat := 0

/-- Modelled from the spec: encoding of plain ("MN") bypass mode. -/
def DPLL_EN_MN_BYPASS : Nat := 4

/-- Modelled from the spec: encoding of low-power bypass mode. -/
def DPLL_EN_LOW_POWER_BYPASS : Nat := 5

/-- Modelled from the spec: encoding of fast-relock bypass mode. -/
def DPLL_EN_FAST_RELOCK_BYPASS : Nat := 6

/-- Modelled from the spec: encoding of locked-and-enabled mode. -/
def DPLL_EN_LOCK : Nat := 7

/-- Modelled from the spec: the select register "holds the multiplier field
and divider-minus-one field"; the multiplier field is the 11 bits 8..18
(multiplier range 2..2047 needs 11 bits). CM_CLKSEL_DPLL_M_MASK of the
missing platform header. -/
def CM_CLKSEL_DPLL_M_MASK : Nat := 0x7FF00

/-- Modelled from the spec: shift of the multiplier field. -/
def CM_CLKSEL_DPLL_M_SHIFT : Nat := 8

/-- Modelled from the spec: the divider-minus-one field is the 7 bits 0..6
(divider range 1..128, stored biased by one, needs 7 bits).
CM_CLKSEL_DPLL_N_MASK of the missing platform header. -/
def CM_CLKSEL_DPLL_N_MASK : Nat := 0x7F

/-- Modelled from the spec: shift of the divider-minus-one field. -/
def CM_CLKSEL_DPLL_N_SHIFT : Nat := 0

/-- The mode-control enable field as get_rate extracts it:
`v = readl(clkmode_reg); v &= EN_MASK; v >>= EN_SHIFT;`. -/
def dpllEnField (clkmode : Nat) : Nat :=
  (clkmode &&& CM_CLKMODE_DPLL_EN_MASK) >>> CM_CLKMODE_DPLL_EN_SHIFT

/-- The three-case switch of get_rate: does the enable field decode to one of
the three bypass variants? -/
def isBypassMode (v : Nat) : Bool :=
  decide (v = DPLL_EN_MN_BYPASS ∨ v = DPLL_EN_LOW_POWER_BYPASS ∨
          v = DPLL_EN_FAST_RELOCK_BYPASS)

/-- The multiplier field of the select register:
`m = v & M_MASK; m >>= M_SHIFT;`. -/
def dpllM (clksel : Nat) : Nat :=
  (clksel &&& CM_CLKSEL_DPLL_M_MASK) >>> CM_CLKSEL_DPLL_M_SHIFT

/-- The divider field of the select register:
`n = v & N_MASK; n >>= N_SHIFT;`. -/
def dpllN (clksel : Nat) : Nat :=
  (clksel &&& CM_CLKSEL_DPLL_N_MASK) >>> CM_CLKSEL_DPLL_N_SHIFT

/-- The divisor of get_rate's locked branch: `do_div(rate, n + 1)`. -/
def dpllDivisor (clksel : Nat) : Nat := dpllN clksel + 1

/-- `clk_ti_am3_dpll_get_rate` as a function of the reference-clock rate, the
bypass-clock rate and the two register values it reads. -/
def clk_ti_am3_dpll_get_rate (ref bypassRate clkmode clksel : Nat) : Nat :=
  if isBypassMode (dpllEnField clkmode) then bypassRate
  else (ref * dpllM clksel) % U64 / dpllDivisor clksel

/-- The registers and private fields that `clk_ti_am3_dpll_set_rate` touches:
the mode-control and select registers and the cached
`last_rounded_mult` (u16) / `last_rounded_div` (u8). -/
structure DpllState where
  clkmode : Nat
  clksel : Nat
  lastMult : Nat
  lastDiv : Nat
deriving DecidableEq

/-- round_rate including its side effect: `priv->last_rounded_mult = mult;`
`priv->last_rounded_div = div;` (with the u16/u8 truncation of the stores). -/
def round_rate_st (maxRate ref rate : Nat) (s : DpllState) : Nat × DpllState :=
  let st := clk_ti_am3_dpll_round_rate maxRate ref rate
  (st.ret, { s with lastMult := st.mult % 65536, lastDiv := st.div % 256 })

/-- Bitwise complement on u32. -/
def u32not (x : Nat) : Nat := 4294967295 ^^^ x

/-- `clrsetbits_le32(addr, clear, set)`:
`writel((readl(addr) & ~clear) | set, addr)`, on the value. -/
def clrsetbits_le32 (v clear set : Nat) : Nat := (v &&& u32not clear) ||| set

/-- The "set M & N" block of set_rate: starting from the select-register value
`v` read before entering bypass, clear and set the multiplier field from
`last_rounded_mult` and the divider field from `(last_rounded_div - 1)`
(int arithmetic: a u8 value 0 gives -1, i.e. all-ones, before masking). -/
def newClksel (v lastMult lastDiv : Nat) : Nat :=
  let v1 := (v &&& u32not CM_CLKSEL_DPLL_M_MASK) |||
            ((lastMult <<< CM_CLKSEL_DPLL_M_SHIFT) &&& CM_CLKSEL_DPLL_M_MASK)
  (v1 &&& u32not CM_CLKSEL_DPLL_N_MASK) |||
    ((((lastDiv + U32 - 1) % U32) <<< CM_CLKSEL_DPLL_N_SHIFT) &&& CM_CLKSEL_DPLL_N_MASK)

/-- `clk_ti_am3_dpll_set_rate`. The booleans are the outcomes of the two
`wait_on_value` polls (bypass confirmation, lock confirmation); `none` models
`hang()`. On success the returned pair is (returned rate, final state). -/
def clk_ti_am3_dpll_set_rate (maxRate ref : Nat) (bypassOk lockOk : Bool)
    (rate : Nat) (s : DpllState) : Option (Nat × DpllState) :=
  let rs := round_rate_st maxRate ref rate s
  if IS_ERR_VALUE rs.1 then some rs
  else
    let s1 := rs.2
    let v := s1.clksel
    let mode1 := clrsetbits_le32 s1.clkmode CM_CLKMODE_DPLL_EN_MASK (DPLL_EN_MN_BYPASS <<< CM_CLKMODE_DPLL_EN_SHIFT)
    let s2 := { s1 with clkmode := mode1 }
    -- wait_on_value(ST_DPLL_CLK_MASK, 0, idlest_reg, LDELAY): outcome
    -- bypassOk; on timeout only dev_err, the sequence continues.
    let s3 := { s2 with clksel := newClksel v s2.lastMult s2.lastDiv }
    let mode2 := clrsetbits_le32 s3.clkmode CM_CLKMODE_DPLL_EN_MASK (DPLL_EN_LOCK <<< CM_CLKMODE_DPLL_EN_SHIFT)
    let s4 := { s3 with clkmode := mode2 }
    -- wait_on_value(ST_DPLL_CLK_MASK, ST_DPLL_CLK_MASK, idlest_reg, LDELAY):
    -- outcome lockOk; on timeout dev_err then hang().
    if lockOk then some (rs.1, s4) else none

/-- The distance |r - rate| on Nat, used to state what `abs(r - rate)` means
when no conversion wraps. -/
def distN (rate r : Nat) : Nat := if rate ≤ r then r - rate else rate - r

/-- A candidate rate with exact (non-wrapping) arithmetic:
floor(referenceRate * m / d). -/
def tcand (ref d m : Nat) : Nat := ref * m / d

/-- The true error |floor(ref * m / d) - rate| of the pair (d, m), with exact
arithmetic. -/
def tErrN (ref rate d m : Nat) : Nat := distN rate (tcand ref d m)

/-- Divider-then-multiplier lexicographic order on pairs: the tie-break rule
"smallest divider, then smallest multiplier". -/
def lexLE (d0 m0 d m : Nat) : Prop := d0 < d ∨ (d0 = d ∧ m0 ≤ m)

/-- The search state at the top of the loops:
`ret = -EFAULT; err_min = rate; mult = INT_MAX; div = INT_MAX`. -/
def initSt (rate : Nat) : SearchSt := ⟨EFAULT_RET, toInt32 rate, INT_MAX, INT_MAX⟩

/-- The set of pairs the loops have fully processed (or soundly skipped) when
the next candidate to evaluate is multiplier `mCur` at divider `dCur`:
all pairs at a strictly smaller divider, and smaller multipliers at `dCur`. -/
def covered (dCur mCur d m : Nat) : Prop :=
  2 ≤ m ∧ m ≤ 2047 ∧ 1 ≤ d ∧ (d < dCur ∨ (d = dCur ∧ m < mCur))

/-- Unconditional structural invariant of the search state: either nothing was
ever recorded (all three sentinels), or the recorded pair lies in the scanned
ranges and `ret` is its candidate rate as the source computes it. -/
def RangeInv (ref : Nat) (st : SearchSt) : Prop :=
  (st.ret = EFAULT_RET ∧ st.mult = INT_MAX ∧ st.div = INT_MAX) ∨
  (2 ≤ st.mult ∧ st.mult ≤ 2047 ∧ 1 ≤ st.div ∧ st.div ≤ 128 ∧
   st.ret = candW ref st.div st.mult)

/-- Full correctness invariant of the search state, relative to exact
arithmetic (it is established under bounds that exclude int wraparound).
Either no candidate has improved on the initial error bound and every covered
pair has true error at least `rate`; or the recorded pair is covered, in
range, `ret`/`err_min` are its exact candidate rate and error, that error
beats `rate`, and the recorded pair is a lexicographically-first minimizer of
the true error over all covered pairs. -/
def SearchInv (ref rate dCur mCur : Nat) (st : SearchSt) : Prop :=
  (st = initSt rate ∧ ∀ d m, covered dCur mCur d m → rate ≤ tErrN ref rate d m) ∨
  (2 ≤ st.mult ∧ st.mult ≤ 2047 ∧ 1 ≤ st.div ∧ st.div ≤ 128 ∧
   covered dCur mCur st.div st.mult ∧
   st.ret = tcand ref st.div st.mult ∧
   st.errMin = (tErrN ref rate st.div st.mult : Int) ∧
   tErrN ref rate st.div st.mult < rate ∧
   ∀ d m, covered dCur mCur d m →
     tErrN ref rate st.div st.mult ≤ tErrN ref rate d m ∧
     (tErrN ref rate d m = tErrN ref rate st.div st.mult → lexLE st.div st.mult d m))

set_option maxRecDepth 100000

lemma toInt32_small {x : Nat} (h : x < 2147483648) : toInt32 x = (x : Int) := by
  unfold toInt32 U32
  rw [Nat.mod_eq_of_lt (by omega)]
  rw [if_pos h]

lemma wErr_exact {rate r : Nat} (hrate : rate < 2147483648) (hr : r < U64)
    (hclose : distN rate r < 2147483648) :
    wErr rate r = (distN rate r : Int) := by
  unfold distN at *
  unfold wErr u64sub toInt32 cAbs U64 U32 at *
  split_ifs at * <;> omega

lemma tcand_mono (ref d : Nat) {m m' : Nat} (h : m ≤ m') :
    tcand ref d m ≤ tcand ref d m' :=
  Nat.div_le_div_right (Nat.mul_le_mul_left ref h)

lemma tcand_succ_le (ref d m : Nat) (hd : 1 ≤ d) :
    tcand ref d (m + 1) ≤ tcand ref d m + ref + 1 := by
  unfold tcand
  have hmul : ref * (m + 1) = ref * m + ref := by ring
  rw [hmul, Nat.add_div (by omega : 0 < d)]
  have h1 : ref / d ≤ ref := Nat.div_le_self ref d
  split_ifs <;> omega

lemma tcand_two_le (ref d : Nat) : tcand ref d 2 ≤ 2 * ref := by
  unfold tcand
  calc ref * 2 / d ≤ ref * 2 := Nat.div_le_self _ _
  _ = 2 * ref := by ring

lemma candW_eq_tcand {ref m : Nat} (d : Nat) (h : ref * m < U64) :
    candW ref d m = tcand ref d m := by
  unfold candW tcand
  rw [Nat.mod_eq_of_lt h]

lemma covered_shift (dCur d m : Nat) :
    covered (dCur + 1) 2 d m ↔ covered dCur 2048 d m := by
  unfold covered; omega

lemma searchInv_iff {ref rate dC mC dC' mC' : Nat} {st : SearchSt}
    (h : ∀ d m, covered dC' mC' d m ↔ covered dC mC d m) :
    SearchInv ref rate dC mC st → SearchInv ref rate dC' mC' st := by
  intro hi
  rcases hi with ⟨h1, h2'⟩ | ⟨hm1, hm2, hd1, hd2, hc, hret, herr, hlt, hall⟩
  · exact Or.inl ⟨h1, fun d m hc => h2' d m ((h d m).mp hc)⟩
  · exact Or.inr ⟨hm1, hm2, hd1, hd2, (h _ _).mpr hc, hret, herr, hlt,
      fun d m hc2 => hall d m ((h d m).mp hc2)⟩

lemma innerLoop_rangeInv (ref rate d : Nat) (hd1 : 1 ≤ d) (hd2 : d ≤ 128) :
    ∀ fuel m st, 2 ≤ m → RangeInv ref st →
      RangeInv ref (innerLoop ref rate d fuel m st) := by
  intro fuel
  induction fuel with
  | zero => intro m st _ hr; simpa [innerLoop] using hr
  | succ fuel ih =>
    intro m st hm hr
    simp only [innerLoop]
    split_ifs with h1 h2 h3 h4
    · exact Or.inr ⟨hm, h1, hd1, hd2, rfl⟩
    · exact ih (m + 1) _ (by omega) (Or.inr ⟨hm, h1, hd1, hd2, rfl⟩)
    · exact hr
    · exact ih (m + 1) st (by omega) hr
    · exact hr

lemma outerLoop_rangeInv (ref rate : Nat) :
    ∀ fuel d st, 1 ≤ d → RangeInv ref st →
      RangeInv ref (outerLoop ref rate fuel d st) := by
  intro fuel
  induction fuel with
  | zero => intro d st _ hr; simpa [outerLoop] using hr
  | succ fuel ih =>
    intro d st hd hr
    simp only [outerLoop]
    split_ifs with h1
    · exact ih (d + 1) _ (by omega)
        (innerLoop_rangeInv ref rate d hd h1.2 2046 2 st (by omega) hr)
    · exact hr

lemma round_rate_rangeInv (maxRate ref rate : Nat) :
    RangeInv ref (clk_ti_am3_dpll_round_rate maxRate ref rate) :=
  outerLoop_rangeInv ref (clampRate maxRate rate) 128 1 _ (by omega)
    (Or.inl ⟨rfl, rfl, rfl⟩)

/-- C2: with referenceRate = 24,000,000, targetRate = 1,000,000,000 and
maxRate = 1,000,000,000, the search reaches error 0 and returns exactly
1,000,000,000 with multiplier 125 and divider 3, and the achieved rate does
not exceed the requested rate. -/
theorem round_rate_scenario_exact_1ghz :
    clk_ti_am3_dpll_round_rate 1000000000 24000000 1000000000
      = ⟨1000000000, 0, 125, 3⟩ ∧
    (clk_ti_am3_dpll_round_rate 1000000000 24000000 1000000000).ret
      ≤ 1000000000 := by
  decide

/-- C4: if maxRate is nonzero and the target exceeds it, round_rate proceeds
exactly as if called with the target equal to maxRate; if maxRate is zero or
the target does not exceed it, the target is used unchanged. -/
theorem round_rate_clamping (maxRate ref rate : Nat) :
    (maxRate ≠ 0 → rate > maxRate →
      clk_ti_am3_dpll_round_rate maxRate ref rate
        = clk_ti_am3_dpll_round_rate maxRate ref maxRate) ∧
    (maxRate = 0 ∨ rate ≤ maxRate →
      clk_ti_am3_dpll_round_rate maxRate ref rate = dpllSearch ref rate) := by
  unfold clk_ti_am3_dpll_round_rate clampRate
  constructor
  · intro h1 h2
    rw [if_pos ⟨h1, h2⟩, if_neg (by omega)]
  · intro h
    rcases h with h | h
    · rw [if_neg (by omega)]
    · rw [if_neg (by omega)]

theorem round_rate_clamping_witness :
    clk_ti_am3_dpll_round_rate 5 3 7 = clk_ti_am3_dpll_round_rate 5 3 5 ∧
    clk_ti_am3_dpll_round_rate 5 3 4 = dpllSearch 3 4 :=
  ⟨(round_rate_clamping 5 3 7).1 (by decide) (by decide),
   (round_rate_clamping 5 3 4).2 (Or.inr (by decide))⟩

/-- C10: in the locked branch of get_rate the divisor is n + 1 for the raw
divider field n extracted from the select register, hence positive — the
division can never be by zero, whatever the register holds. -/
theorem get_rate_divisor_never_zero (clksel : Nat) :
    dpllDivisor clksel = dpllN clksel + 1 ∧ 0 < dpllDivisor clksel :=
  ⟨rfl, Nat.succ_pos _⟩

/-- C3: when the mode-control enable field decodes to a bypass variant,
get_rate returns the bypass clock's rate for every select-register value;
otherwise it returns floor(referenceRate * m / (n + 1)) for the fields m, n
of the select register, and (for any reference rate below 2^53) the 64-bit
product referenceRate * m does not wrap. -/
theorem get_rate_decode (ref bypassRate clkmode clksel : Nat) :
    (isBypassMode (dpllEnField clkmode) = true →
      clk_ti_am3_dpll_get_rate ref bypassRate clkmode clksel = bypassRate) ∧
    (isBypassMode (dpllEnField clkmode) = false → ref < 2 ^ 53 →
      clk_ti_am3_dpll_get_rate ref bypassRate clkmode clksel
        = ref * dpllM clksel / (dpllN clksel + 1)) := by
  constructor
  · intro h
    unfold clk_ti_am3_dpll_get_rate
    rw [h]
    rfl
  · intro h href
    unfold clk_ti_am3_dpll_get_rate
    rw [h]
    simp only [Bool.false_eq_true, if_false]
    have hm : dpllM clksel ≤ 2047 := by
      unfold dpllM CM_CLKSEL_DPLL_M_MASK CM_CLKSEL_DPLL_M_SHIFT
      have h1 : clksel &&& 0x7FF00 ≤ 0x7FF00 := Nat.and_le_right
      calc (clksel &&& 0x7FF00) >>> 8 ≤ 0x7FF00 >>> 8 := by
            rw [Nat.shiftRight_eq_div_pow, Nat.shiftRight_eq_div_pow]
            exact Nat.div_le_div_right h1
        _ = 2047 := by decide
    have hlt : ref * dpllM clksel < U64 := by
      have h2 : ref * dpllM clksel ≤ ref * 2047 := Nat.mul_le_mul_left ref hm
      have h3 : ref * 2047 ≤ (2 ^ 53 - 1) * 2047 :=
        Nat.mul_le_mul_right 2047 (by omega)
      have h4 : (2 ^ 53 - 1) * 2047 < U64 := by decide
      omega
    rw [Nat.mod_eq_of_lt hlt]
    rfl

theorem get_rate_decode_witness :
    clk_ti_am3_dpll_get_rate 24000000 32768 5 74565 = 32768 ∧
    clk_ti_am3_dpll_get_rate 24000000 32768 7 74565
      = 24000000 * dpllM 74565 / (dpllN 74565 + 1) :=
  ⟨(get_rate_decode 24000000 32768 5 74565).1 (by decide),
   (get_rate_decode 24000000 32768 7 74565).2 (by decide) (by decide)⟩

/-- C7: a bypass-confirmation timeout is non-fatal: set_rate behaves
identically whether the bypass poll succeeds or times out — it still writes
the select register, requests lock, waits for lock, and (when lock succeeds)
returns the same achieved rate. -/
theorem set_rate_bypass_timeout_nonfatal (maxRate ref : Nat) (lockOk : Bool)
    (rate : Nat) (s : DpllState) :
    clk_ti_am3_dpll_set_rate maxRate ref false lockOk rate s
      = clk_ti_am3_dpll_set_rate maxRate ref true lockOk rate s ∧
    (IS_ERR_VALUE (clk_ti_am3_dpll_round_rate maxRate ref rate).ret = false →
      (clk_ti_am3_dpll_set_rate maxRate ref false true rate s).map Prod.fst
        = some (clk_ti_am3_dpll_round_rate maxRate ref rate).ret) := by
  refine ⟨rfl, fun h => ?_⟩
  unfold clk_ti_am3_dpll_set_rate round_rate_st
  simp [h]

theorem set_rate_bypass_timeout_nonfatal_witness :
    clk_ti_am3_dpll_set_rate 0 1 false false 1 ⟨0, 0, 0, 0⟩
      = clk_ti_am3_dpll_set_rate 0 1 true false 1 ⟨0, 0, 0, 0⟩ ∧
    (clk_ti_am3_dpll_set_rate 0 1 false true 1 ⟨0, 0, 0, 0⟩).map Prod.fst
      = some (clk_ti_am3_dpll_round_rate 0 1 1).ret :=
  ⟨(set_rate_bypass_timeout_nonfatal 0 1 false 1 ⟨0, 0, 0, 0⟩).1,
   (set_rate_bypass_timeout_nonfatal 0 1 false 1 ⟨0, 0, 0, 0⟩).2 (by decide)⟩

/-- C5: when the embedded search returns the failure sentinel, set_rate
returns it immediately; the mode-control and select registers are exactly as
in the initial state — no register was read-modified or written. -/
theorem set_rate_search_failure_untouched (maxRate ref : Nat)
    (bypassOk lockOk : Bool) (rate : Nat) (s : DpllState)
    (h : IS_ERR_VALUE (clk_ti_am3_dpll_round_rate maxRate ref rate).ret = true) :
    clk_ti_am3_dpll_set_rate maxRate ref bypassOk lockOk rate s
      = some (round_rate_st maxRate ref rate s) ∧
    (round_rate_st maxRate ref rate s).2.clkmode = s.clkmode ∧
    (round_rate_st maxRate ref rate s).2.clksel = s.clksel := by
  refine ⟨?_, rfl, rfl⟩
  unfold clk_ti_am3_dpll_set_rate round_rate_st
  simp [h]

theorem set_rate_search_failure_untouched_witness :
    clk_ti_am3_dpll_set_rate 0 128 true true 1 ⟨17, 23, 3, 4⟩
      = some (round_rate_st 0 128 1 ⟨17, 23, 3, 4⟩) ∧
    (round_rate_st 0 128 1 ⟨17, 23, 3, 4⟩).2.clkmode = 17 ∧
    (round_rate_st 0 128 1 ⟨17, 23, 3, 4⟩).2.clksel = 23 :=
  set_rate_search_failure_untouched 0 128 true true 1 ⟨17, 23, 3, 4⟩ (by decide)

/-- C6: when the search succeeded (so the hardware sequence runs), set_rate
returns no value at all exactly when the final lock-confirmation poll times
out — a timed-out lock poll halts (hang), and every run that does return a
value had a successful lock poll. -/
theorem set_rate_lock_timeout_fatal (maxRate ref : Nat) (bypassOk lockOk : Bool)
    (rate : Nat) (s : DpllState)
    (h : IS_ERR_VALUE (clk_ti_am3_dpll_round_rate maxRate ref rate).ret = false) :
    clk_ti_am3_dpll_set_rate maxRate ref bypassOk lockOk rate s = none
      ↔ lockOk = false := by
  unfold clk_ti_am3_dpll_set_rate round_rate_st
  simp [h]

theorem set_rate_lock_timeout_fatal_witness :
    clk_ti_am3_dpll_set_rate 0 1 true false 1 ⟨0, 0, 0, 0⟩ = none :=
  (set_rate_lock_timeout_fatal 0 1 true false 1 ⟨0, 0, 0, 0⟩ (by decide)).mpr rfl

/-- C1 counterexample: with maxRate = 0 (no clamping), referenceRate = 1 and
the positive targetRate 2^32 + 4, round_rate returns 4 — not the failure
sentinel — recording the pair (mult, div) = (4, 1); but the in-range pair
m = 2047, d = 1 has a strictly smaller true error
|floor(1 * 2047 / 1) - targetRate|. The int error arithmetic wrapped mod
2^32, so the claimed global minimality fails as stated. -/
theorem round_rate_minimality_cex :
    (clk_ti_am3_dpll_round_rate 0 1 4294967300).ret ≠ EFAULT_RET ∧
    0 < clampRate 0 4294967300 ∧
    (clk_ti_am3_dpll_round_rate 0 1 4294967300).mult = 4 ∧
    (clk_ti_am3_dpll_round_rate 0 1 4294967300).div = 1 ∧
    tErrN 1 (clampRate 0 4294967300) 1 2047
      < tErrN 1 (clampRate 0 4294967300)
          (clk_ti_am3_dpll_round_rate 0 1 4294967300).div
          (clk_ti_am3_dpll_round_rate 0 1 4294967300).mult := by
  decide

/-- C9: every call to round_rate overwrites last_rounded_mult and
last_rounded_div with the mult/div the search found (truncated to the u16/u8
fields); when the search recorded no pair, the returned value is the failure
sentinel and the stored values are the truncated INT_MAX sentinels 65535 and
255, which lie outside the valid ranges 2..2047 and 1..128. -/
theorem round_rate_always_stores_pair (maxRate ref rate : Nat) (s : DpllState) :
    ((round_rate_st maxRate ref rate s).2.lastMult
       = (clk_ti_am3_dpll_round_rate maxRate ref rate).mult % 65536 ∧
     (round_rate_st maxRate ref rate s).2.lastDiv
       = (clk_ti_am3_dpll_round_rate maxRate ref rate).div % 256) ∧
    ((clk_ti_am3_dpll_round_rate maxRate ref rate).mult = INT_MAX ∨
       (clk_ti_am3_dpll_round_rate maxRate ref rate).div = INT_MAX →
      (clk_ti_am3_dpll_round_rate maxRate ref rate).ret = EFAULT_RET ∧
      (round_rate_st maxRate ref rate s).2.lastMult = 65535 ∧
      (round_rate_st maxRate ref rate s).2.lastDiv = 255 ∧
      ¬(2 ≤ (round_rate_st maxRate ref rate s).2.lastMult ∧
        (round_rate_st maxRate ref rate s).2.lastMult ≤ 2047) ∧
      ¬(1 ≤ (round_rate_st maxRate ref rate s).2.lastDiv ∧
        (round_rate_st maxRate ref rate s).2.lastDiv ≤ 128)) := by
  refine ⟨⟨rfl, rfl⟩, fun h => ?_⟩
  have hI : INT_MAX = 2147483647 := rfl
  rcases round_rate_rangeInv maxRate ref rate with ⟨h1, h2, h3⟩ |
    ⟨h1, h2, h3, h4, _⟩
  · have e1 : (round_rate_st maxRate ref rate s).2.lastMult = 65535 := by
      show (clk_ti_am3_dpll_round_rate maxRate ref rate).mult % 65536 = 65535
      rw [h2]
      decide
    have e2 : (round_rate_st maxRate ref rate s).2.lastDiv = 255 := by
      show (clk_ti_am3_dpll_round_rate maxRate ref rate).div % 256 = 255
      rw [h3]
      decide
    exact ⟨h1, e1, e2, by omega, by omega⟩
  · rcases h with h | h
    · rw [hI] at h; omega
    · rw [hI] at h; omega

theorem round_rate_always_stores_pair_witness :
    (round_rate_st 0 128 1 ⟨0, 0, 0, 0⟩).2.lastMult = 65535 ∧
    (round_rate_st 0 128 1 ⟨0, 0, 0, 0⟩).2.lastDiv = 255 ∧
    (clk_ti_am3_dpll_round_rate 0 128 1).ret = EFAULT_RET := by
  have h := (round_rate_always_stores_pair 0 128 1 ⟨0, 0, 0, 0⟩).2
    (Or.inl (by decide))
  exact ⟨h.2.1, h.2.2.1, h.1⟩

lemma tErrN_lt_rate_imp {ref rate d m : Nat} (h : tErrN ref rate d m < rate) :
    tcand ref d m ≤ 2 * rate := by
  unfold tErrN distN at h
  split_ifs at h <;> omega

lemma tErrN_mono_above {ref rate d : Nat} {m m' : Nat} (hmm : m ≤ m')
    (hover : tcand ref d m > rate) :
    tErrN ref rate d m ≤ tErrN ref rate d m' := by
  have hmono := tcand_mono ref d hmm
  unfold tErrN distN
  split_ifs <;> omega

lemma innerLoop_searchInv (ref rate d : Nat) (hd1 : 1 ≤ d) (hd2 : d ≤ 128)
    (hrate : 0 < rate) (hb : 2 * (rate + ref) < 2147483648) :
    ∀ fuel m st, 2 ≤ m → m + fuel = 2048 →
      (m = 2 ∨ tcand ref d (m - 1) ≤ 2 * rate) →
      SearchInv ref rate d m st →
      SearchInv ref rate (d + 1) 2 (innerLoop ref rate d fuel m st) := by
  intro fuel
  induction fuel with
  | zero =>
    intro m st _ hf _ hi
    have hm' : m = 2048 := by omega
    subst hm'
    exact searchInv_iff (fun d' m' => covered_shift d d' m') hi
  | succ fuel ih =>
    intro m st hm hf hprev hi
    have hm2047 : m ≤ 2047 := by omega
    have hprod : ref * m < U64 := by
      have ha : ref * m ≤ ref * 2047 := Nat.mul_le_mul_left ref hm2047
      have hb2 : ref * 2047 ≤ 1073741823 * 2047 :=
        Nat.mul_le_mul_right 2047 (by omega)
      have hc : (1073741823 : Nat) * 2047 < U64 := by decide
      omega
    have hcand : candW ref d m = tcand ref d m := candW_eq_tcand d hprod
    have hrbound : tcand ref d m ≤ 2 * rate + ref + 1 ∨ tcand ref d m ≤ 2 * ref := by
      rcases hprev with h | h
      · right
        subst h
        exact tcand_two_le ref d
      · left
        have hstep := tcand_succ_le ref d (m - 1) hd1
        have hm1 : m - 1 + 1 = m := by omega
        rw [hm1] at hstep
        omega
    have hclose : distN rate (tcand ref d m) < 2147483648 := by
      unfold distN
      split_ifs with hle
      · rcases hrbound with h | h <;> omega
      · omega
    have hrU : tcand ref d m < U64 := by
      have h5 : tcand ref d m ≤ ref * m := Nat.div_le_self _ _
      omega
    have herr : wErr rate (candW ref d m) = ((tErrN ref rate d m : Nat) : Int) := by
      rw [hcand]
      exact wErr_exact (by omega) hrU hclose
    have hEminLe : st.errMin ≤ (rate : Int) := by
      rcases hi with ⟨hinit, _⟩ | ⟨_, _, _, _, _, _, herrm, hlt, _⟩
      · rw [hinit]
        show toInt32 rate ≤ (rate : Int)
        rw [toInt32_small (by omega)]
      · rw [herrm]
        exact_mod_cast Nat.le_of_lt hlt
    simp only [innerLoop]
    rw [herr, hcand]
    rw [if_pos hm2047]
    by_cases hcnd : ((tErrN ref rate d m : Nat) : Int) < st.errMin
    · rw [if_pos hcnd]
      have htlt : tErrN ref rate d m < rate := by
        have := lt_of_lt_of_le hcnd hEminLe
        exact_mod_cast this
      by_cases h0 : ((tErrN ref rate d m : Nat) : Int) = 0
      · -- update, exact hit: err = 0, return the record immediately
        rw [if_pos h0]
        have h0N : tErrN ref rate d m = 0 := by exact_mod_cast h0
        refine Or.inr ?_
        dsimp only
        refine ⟨hm, hm2047, hd1, hd2, ⟨hm, hm2047, hd1, Or.inl (by omega)⟩,
          rfl, rfl, htlt, ?_⟩
        intro d' m' hc'
        by_cases hcov : covered d m d' m'
        · refine ⟨by rw [h0N]; omega, fun he => absurd he ?_⟩
          rcases hi with ⟨_, hcc⟩ | ⟨_, _, _, _, _, _, herrm, _, hall⟩
          · have hge := hcc d' m' hcov
            rw [h0N]
            omega
          · have hrecpos : (0 : Int) < st.errMin :=
              lt_of_le_of_lt (Int.natCast_nonneg _) hcnd
            rw [herrm] at hrecpos
            have hge := (hall d' m' hcov).1
            have hp : 0 < tErrN ref rate st.div st.mult := by exact_mod_cast hrecpos
            rw [h0N]
            omega
        · have hnew : d' = d ∧ m ≤ m' := by
            unfold covered at hc' hcov
            omega
          refine ⟨by rw [h0N]; omega, fun _ => ?_⟩
          unfold lexLE
          omega
      · -- update, continue scanning at m + 1 with the new record
        rw [if_neg h0]
        refine ih (m + 1) ⟨tcand ref d m, ((tErrN ref rate d m : Nat) : Int), m, d⟩
          (by omega) (by omega)
          (Or.inr (by rw [Nat.add_sub_cancel]; exact tErrN_lt_rate_imp htlt)) ?_
        refine Or.inr ?_
        dsimp only
        refine ⟨hm, hm2047, hd1, hd2, ⟨hm, hm2047, hd1, Or.inr ⟨rfl, by omega⟩⟩,
          rfl, rfl, htlt, ?_⟩
        intro d' m' hc'
        by_cases hcov : covered d m d' m'
        · rcases hi with ⟨_, hcc⟩ | ⟨_, _, _, _, _, _, herrm, _, hall⟩
          · have hge := hcc d' m' hcov
            exact ⟨by omega, fun he => by omega⟩
          · have hge := (hall d' m' hcov).1
            have hstrict : tErrN ref rate d m < tErrN ref rate st.div st.mult := by
              rw [herrm] at hcnd
              exact_mod_cast hcnd
            exact ⟨by omega, fun he => by omega⟩
        · have hnew : d' = d ∧ m' = m :=  by
            unfold covered at hc' hcov
            omega
          refine ⟨by rw [hnew.1, hnew.2], fun _ => ?_⟩
          unfold lexLE
          omega
    · rw [if_neg hcnd]
      have hEminLeErr : st.errMin ≤ ((tErrN ref rate d m : Nat) : Int) := not_lt.mp hcnd
      by_cases hover : tcand ref d m > rate
      · -- no improvement and overshoot: break the inner loop
        rw [if_pos hover]
        rcases hi with ⟨hinit, hcc⟩ | ⟨hm1', hm2', hd1', hd2', hc, hret, herrm, hlt, hall⟩
        · refine Or.inl ⟨hinit, fun d' m' hc' => ?_⟩
          by_cases hcov : covered d m d' m'
          · exact hcc d' m' hcov
          · have hnew : d' = d ∧ m ≤ m' := by
              unfold covered at hc' hcov
              omega
            have hrle : rate ≤ tErrN ref rate d m := by
              rw [hinit] at hEminLeErr
              have h6 : toInt32 rate ≤ ((tErrN ref rate d m : Nat) : Int) := hEminLeErr
              rw [toInt32_small (by omega)] at h6
              exact_mod_cast h6
            have hmono := tErrN_mono_above hnew.2 hover
            rw [hnew.1]
            omega
        · refine Or.inr ⟨hm1', hm2', hd1', hd2', ?_, hret, herrm, hlt, ?_⟩
          · unfold covered at hc ⊢
            omega
          · intro d' m' hc'
            by_cases hcov : covered d m d' m'
            · exact hall d' m' hcov
            · have hnew : d' = d ∧ m ≤ m' := by
                unfold covered at hc' hcov
                omega
              have hrecle : tErrN ref rate st.div st.mult ≤ tErrN ref rate d m := by
                rw [herrm] at hEminLeErr
                exact_mod_cast hEminLeErr
              have hmono := tErrN_mono_above hnew.2 hover
              refine ⟨by rw [hnew.1]; omega, fun _ => ?_⟩
              unfold covered at hc
              unfold lexLE
              omega
      · -- no improvement, no overshoot: continue scanning at m + 1
        rw [if_neg hover]
        have hle2 : tcand ref d m ≤ rate := not_lt.mp hover
        refine ih (m + 1) st (by omega) (by omega)
          (Or.inr (by rw [Nat.add_sub_cancel]; omega)) ?_
        rcases hi with ⟨hinit, hcc⟩ | ⟨hm1', hm2', hd1', hd2', hc, hret, herrm, hlt, hall⟩
        · refine Or.inl ⟨hinit, fun d' m' hc' => ?_⟩
          by_cases hcov : covered d m d' m'
          · exact hcc d' m' hcov
          · have hnew : d' = d ∧ m' = m := by
              unfold covered at hc' hcov
              omega
            have hrle : rate ≤ tErrN ref rate d m := by
              rw [hinit] at hEminLeErr
              have h6 : toInt32 rate ≤ ((tErrN ref rate d m : Nat) : Int) := hEminLeErr
              rw [toInt32_small (by omega)] at h6
              exact_mod_cast h6
            rw [hnew.1, hnew.2]
            exact hrle
        · refine Or.inr ⟨hm1', hm2', hd1', hd2', ?_, hret, herrm, hlt, ?_⟩
          · unfold covered at hc ⊢
            omega
          · intro d' m' hc'
            by_cases hcov : covered d m d' m'
            · exact hall d' m' hcov
            · have hnew : d' = d ∧ m' = m := by
                unfold covered at hc' hcov
                omega
              have hrecle : tErrN ref rate st.div st.mult ≤ tErrN ref rate d m := by
                rw [herrm] at hEminLeErr
                exact_mod_cast hEminLeErr
              refine ⟨by rw [hnew.1, hnew.2]; omega, fun _ => ?_⟩
              unfold covered at hc
              unfold lexLE
              omega

lemma outerLoop_searchInv (ref rate : Nat) (hrate : 0 < rate)
    (hb : 2 * (rate + ref) < 2147483648) :
    ∀ fuel d st, 1 ≤ d → d + fuel = 129 →
      SearchInv ref rate d 2 st →
      SearchInv ref rate 129 2 (outerLoop ref rate fuel d st) := by
  intro fuel
  induction fuel with
  | zero =>
    intro d st _ hf hi
    have hd' : d = 129 := by omega
    subst hd'
    exact hi
  | succ fuel ih =>
    intro d st hd hf hi
    simp only [outerLoop]
    by_cases h1 : st.errMin ≠ 0 ∧ d ≤ 128
    · rw [if_pos h1]
      exact ih (d + 1) _ (by omega) (by omega)
        (innerLoop_searchInv ref rate d hd h1.2 hrate hb 2046 2 st (by omega)
          (by omega) (Or.inl rfl) hi)
    · rw [if_neg h1]
      have hd128 : d ≤ 128 := by omega
      have h0 : st.errMin = 0 := by
        by_contra hne
        exact h1 ⟨hne, hd128⟩
      rcases hi with ⟨hinit, _⟩ | ⟨hm1, hm2, hd1, hd2', hc, hret, herrm, hlt, hall⟩
      · exfalso
        rw [hinit] at h0
        have h2 : toInt32 rate = (0 : Int) := h0
        rw [toInt32_small (by omega)] at h2
        have : rate = 0 := by exact_mod_cast h2
        omega
      · have h00 : tErrN ref rate st.div st.mult = 0 := by
          rw [herrm] at h0
          exact_mod_cast h0
        refine Or.inr ⟨hm1, hm2, hd1, hd2', ?_, hret, herrm, hlt, ?_⟩
        · unfold covered at hc ⊢
          omega
        · intro d' m' hc'
          by_cases hcov : covered d 2 d' m'
          · exact hall d' m' hcov
          · refine ⟨by rw [h00]; omega, fun _ => ?_⟩
            unfold covered at hc hc' hcov
            unfold lexLE
            omega

/-- C1 (amended): for every positive clamped target and positive reference
rate that additionally keep the 32-bit int error arithmetic exact
(2 * (clampedTarget + referenceRate) < 2^31), if round_rate returns a value
other than the failure sentinel then the recorded pair satisfies
1 <= div <= 128 and 2 <= mult <= 2047, the returned rate equals
floor(referenceRate * mult / div), no pair in those ranges has a strictly
smaller true error, and the recorded pair is lexicographically first
(smallest divider, then smallest multiplier) among the minimizers. Without
the added bound the statement fails (see the counterexample). -/
theorem round_rate_minimality_amended (maxRate ref rate : Nat)
    (h1 : 0 < clampRate maxRate rate) (h2 : 0 < ref)
    (hb : 2 * (clampRate maxRate rate + ref) < 2147483648)
    (hns : (clk_ti_am3_dpll_round_rate maxRate ref rate).ret ≠ EFAULT_RET) :
    (2 ≤ (clk_ti_am3_dpll_round_rate maxRate ref rate).mult ∧
     (clk_ti_am3_dpll_round_rate maxRate ref rate).mult ≤ 2047 ∧
     1 ≤ (clk_ti_am3_dpll_round_rate maxRate ref rate).div ∧
     (clk_ti_am3_dpll_round_rate maxRate ref rate).div ≤ 128) ∧
    (clk_ti_am3_dpll_round_rate maxRate ref rate).ret
      = ref * (clk_ti_am3_dpll_round_rate maxRate ref rate).mult
          / (clk_ti_am3_dpll_round_rate maxRate ref rate).div ∧
    (∀ d m, 1 ≤ d → d ≤ 128 → 2 ≤ m → m ≤ 2047 →
      tErrN ref (clampRate maxRate rate)
          (clk_ti_am3_dpll_round_rate maxRate ref rate).div
          (clk_ti_am3_dpll_round_rate maxRate ref rate).mult
        ≤ tErrN ref (clampRate maxRate rate) d m ∧
      (tErrN ref (clampRate maxRate rate) d m
         = tErrN ref (clampRate maxRate rate)
             (clk_ti_am3_dpll_round_rate maxRate ref rate).div
             (clk_ti_am3_dpll_round_rate maxRate ref rate).mult →
       lexLE (clk_ti_am3_dpll_round_rate maxRate ref rate).div
         (clk_ti_am3_dpll_round_rate maxRate ref rate).mult d m)) := by
  have hfinal : SearchInv ref (clampRate maxRate rate) 129 2
      (clk_ti_am3_dpll_round_rate maxRate ref rate) := by
    unfold clk_ti_am3_dpll_round_rate dpllSearch
    refine outerLoop_searchInv ref (clampRate maxRate rate) h1 hb 128 1 _
      (by omega) (by omega) (Or.inl ⟨rfl, fun d m hc => ?_⟩)
    exact absurd hc (by unfold covered; omega)
  rcases hfinal with ⟨hinit, _⟩ |
    ⟨hm1, hm2, hd1, hd2, _, hret, _, _, hall⟩
  · exfalso
    apply hns
    rw [hinit]
    rfl
  · refine ⟨⟨hm1, hm2, hd1, hd2⟩, hret, ?_⟩
    intro d m hdl hdu hml hmu
    exact hall d m ⟨hml, hmu, hdl, by omega⟩

theorem round_rate_minimality_amended_witness :
    (clk_ti_am3_dpll_round_rate 0 3 5).ret
      = 3 * (clk_ti_am3_dpll_round_rate 0 3 5).mult
          / (clk_ti_am3_dpll_round_rate 0 3 5).div ∧
    tErrN 3 (clampRate 0 5) (clk_ti_am3_dpll_round_rate 0 3 5).div
        (clk_ti_am3_dpll_round_rate 0 3 5).mult
      ≤ tErrN 3 (clampRate 0 5) 1 2 := by
  have h := round_rate_minimality_amended 0 3 5 (by decide) (by decide)
    (by decide) (by decide)
  exact ⟨h.2.1, (h.2.2 1 2 (by decide) (by decide) (by decide) (by decide)).1⟩

lemma testBit_M_mask (i : Nat) :
    Nat.testBit CM_CLKSEL_DPLL_M_MASK i = decide (8 ≤ i ∧ i < 19) := by
  have h : CM_CLKSEL_DPLL_M_MASK = (2 ^ 11 - 1) <<< 8 := by decide
  rw [h, Nat.testBit_shiftLeft, Nat.testBit_two_pow_sub_one]
  by_cases h8 : 8 ≤ i <;> by_cases h19 : i < 19 <;>
    simp [h8, h19, ge_iff_le] <;> omega

lemma testBit_N_mask (i : Nat) :
    Nat.testBit CM_CLKSEL_DPLL_N_MASK i = decide (i < 7) := by
  have h : CM_CLKSEL_DPLL_N_MASK = 2 ^ 7 - 1 := by decide
  rw [h, Nat.testBit_two_pow_sub_one]

lemma testBit_u32_ones (i : Nat) :
    Nat.testBit 4294967295 i = decide (i < 32) := by
  have h : (4294967295 : Nat) = 2 ^ 32 - 1 := by decide
  rw [h, Nat.testBit_two_pow_sub_one]

lemma newClksel_testBit (v mult dv : Nat) (hd1 : 1 ≤ dv) (hd2 : dv ≤ 128)
    (i : Nat) :
    Nat.testBit (newClksel v mult dv) i =
      if i < 7 then Nat.testBit (dv - 1) i
      else if 8 ≤ i ∧ i < 19 then Nat.testBit mult (i - 8)
      else (Nat.testBit v i && decide (i < 32)) := by
  have hdv : (dv + U32 - 1) % U32 = dv - 1 := by
    unfold U32
    omega
  unfold newClksel u32not CM_CLKSEL_DPLL_M_SHIFT CM_CLKSEL_DPLL_N_SHIFT
  rw [hdv]
  simp only [Nat.testBit_lor, Nat.testBit_land, Nat.testBit_xor,
    Nat.testBit_shiftLeft, testBit_M_mask, testBit_N_mask, testBit_u32_ones]
  by_cases h7 : i < 7
  · have hM : ¬(8 ≤ i ∧ i < 19) := by omega
    simp [h7, hM, show i < 32 by omega, show 0 ≤ i by omega, ge_iff_le]
  · by_cases hM : 8 ≤ i ∧ i < 19
    · simp [h7, hM, show i < 32 by omega, show 8 ≤ i by omega, ge_iff_le]
    · by_cases h32 : i < 32
      · simp [h7, hM, h32, ge_iff_le, show 0 ≤ i by omega]
      · simp [h7, hM, h32, ge_iff_le, show 0 ≤ i by omega]

lemma newClksel_M_field (v mult dv : Nat) (hm : mult ≤ 2047) (hd1 : 1 ≤ dv)
    (hd2 : dv ≤ 128) : dpllM (newClksel v mult dv) = mult := by
  apply Nat.eq_of_testBit_eq
  intro j
  unfold dpllM CM_CLKSEL_DPLL_M_SHIFT
  rw [Nat.testBit_shiftRight, Nat.testBit_land, testBit_M_mask,
    newClksel_testBit v mult dv hd1 hd2]
  by_cases hj : j < 11
  · have h1 : ¬(8 + j < 7) := by omega
    have h2 : 8 ≤ 8 + j ∧ 8 + j < 19 := by omega
    rw [if_neg h1, if_pos h2]
    simp [h2, Nat.add_sub_cancel_left]
  · have h1 : ¬(8 + j < 7) := by omega
    have h2 : ¬(8 ≤ 8 + j ∧ 8 + j < 19) := by omega
    rw [if_neg h1, if_neg h2]
    have h3 : Nat.testBit mult j = false := by
      apply Nat.testBit_lt_two_pow
      have h4 : (2 : Nat) ^ 11 ≤ 2 ^ j := Nat.pow_le_pow_right (by omega) (by omega)
      omega
    simp [h2, h3]
    omega

lemma newClksel_N_field (v mult dv : Nat) (hd1 : 1 ≤ dv) (hd2 : dv ≤ 128) :
    dpllN (newClksel v mult dv) = dv - 1 := by
  apply Nat.eq_of_testBit_eq
  intro j
  unfold dpllN CM_CLKSEL_DPLL_N_SHIFT
  rw [Nat.testBit_shiftRight, Nat.testBit_land, testBit_N_mask, Nat.zero_add,
    newClksel_testBit v mult dv hd1 hd2]
  by_cases hj : j < 7
  · rw [if_pos hj]
    simp [hj]
  · rw [if_neg hj]
    have h3 : Nat.testBit (dv - 1) j = false := by
      apply Nat.testBit_lt_two_pow
      have h4 : (2 : Nat) ^ 7 ≤ 2 ^ j := Nat.pow_le_pow_right (by omega) (by omega)
      omega
    by_cases hM : 8 ≤ j ∧ j < 19 <;> simp [hj, hM, h3]

lemma newClksel_frame (v mult dv : Nat) (hd1 : 1 ≤ dv) (hd2 : dv ≤ 128) :
    newClksel v mult dv &&& u32not (CM_CLKSEL_DPLL_M_MASK ||| CM_CLKSEL_DPLL_N_MASK)
      = v &&& u32not (CM_CLKSEL_DPLL_M_MASK ||| CM_CLKSEL_DPLL_N_MASK) := by
  apply Nat.eq_of_testBit_eq
  intro j
  unfold u32not
  simp only [Nat.testBit_land, Nat.testBit_xor, Nat.testBit_lor,
    testBit_M_mask, testBit_N_mask, testBit_u32_ones,
    newClksel_testBit v mult dv hd1 hd2]
  by_cases h7 : j < 7
  · have hM : ¬(8 ≤ j ∧ j < 19) := by omega
    simp [h7, hM, show j < 32 by omega]
  · by_cases hM : 8 ≤ j ∧ j < 19
    · simp [h7, hM, show j < 32 by omega]
    · by_cases h32 : j < 32 <;> simp [h7, hM, h32]

/-- C8: on a successful set_rate run (search succeeded, value returned), the
select register differs from the previously read value only in the multiplier
and divider fields: the multiplier field holds last_rounded_mult, the divider
field holds last_rounded_div - 1, and every bit outside the two masks is
unchanged. -/
theorem set_rate_select_write_frame (maxRate ref : Nat) (bypassOk : Bool)
    (rate rr : Nat) (s s' : DpllState)
    (hok : IS_ERR_VALUE rr = false)
    (h : clk_ti_am3_dpll_set_rate maxRate ref bypassOk true rate s
           = some (rr, s')) :
    dpllM s'.clksel = s'.lastMult ∧
    dpllN s'.clksel = s'.lastDiv - 1 ∧
    1 ≤ s'.lastDiv ∧
    s'.clksel &&& u32not (CM_CLKSEL_DPLL_M_MASK ||| CM_CLKSEL_DPLL_N_MASK)
      = s.clksel &&& u32not (CM_CLKSEL_DPLL_M_MASK ||| CM_CLKSEL_DPLL_N_MASK) := by
  by_cases hc : IS_ERR_VALUE (clk_ti_am3_dpll_round_rate maxRate ref rate).ret = true
  · exfalso
    unfold clk_ti_am3_dpll_set_rate round_rate_st at h
    simp [hc] at h
    rw [← h.1] at hok
    rw [hc] at hok
    exact Bool.noConfusion hok
  · have hcf : IS_ERR_VALUE (clk_ti_am3_dpll_round_rate maxRate ref rate).ret
        = false := by
      cases hcv : IS_ERR_VALUE (clk_ti_am3_dpll_round_rate maxRate ref rate).ret
      · rfl
      · exact absurd hcv hc
    unfold clk_ti_am3_dpll_set_rate round_rate_st at h
    simp [hcf] at h
    have hrange := round_rate_rangeInv maxRate ref rate
    rcases hrange with ⟨h1, _, _⟩ | ⟨h1, h2, h3, h4, _⟩
    · exfalso
      rw [h1] at hcf
      have : IS_ERR_VALUE EFAULT_RET = true := by decide
      rw [this] at hcf
      exact Bool.noConfusion hcf
    · have hmod1 : (clk_ti_am3_dpll_round_rate maxRate ref rate).mult % 65536
          = (clk_ti_am3_dpll_round_rate maxRate ref rate).mult :=
        Nat.mod_eq_of_lt (by omega)
      have hmod2 : (clk_ti_am3_dpll_round_rate maxRate ref rate).div % 256
          = (clk_ti_am3_dpll_round_rate maxRate ref rate).div :=
        Nat.mod_eq_of_lt (by omega)
      rw [← h.2]
      dsimp only
      rw [hmod1, hmod2]
      exact ⟨newClksel_M_field _ _ _ h2 h3 h4,
             newClksel_N_field _ _ _ h3 h4,
             h3,
             newClksel_frame _ _ _ h3 h4⟩

theorem set_rate_select_write_frame_witness :
    dpllM 513 = 2 ∧
    dpllN 513 = 2 - 1 ∧
    (1 : Nat) ≤ 2 ∧
    513 &&& u32not (CM_CLKSEL_DPLL_M_MASK ||| CM_CLKSEL_DPLL_N_MASK)
      = 12345 &&& u32not (CM_CLKSEL_DPLL_M_MASK ||| CM_CLKSEL_DPLL_N_MASK) :=
  set_rate_select_write_frame 0 1 true 1 1 ⟨0, 12345, 7, 9⟩ ⟨7, 513, 2, 2⟩
    (by decide) (by decide)
